import Mathlib

/-!
Shallow embedding of `public/app/features/templating/state/queryVariablesReducer.ts`
(Grafana query-variable state machine) and proofs about it.

JavaScript runtime values are modelled as follows: `undefined`/`null` become
`Option.none`; strings become `String`; numbers in option records become `Int`;
a `string | string[]` union becomes the sum type `SV`; a thrown `TypeError`
becomes `Option.none` at the function level, so every fallible code path is a
function into `Option`.
-/

namespace Grafana

/-- A JavaScript primitive appearing in raw metric-name records: a string or a number. -/
inductive JPrim where
  | str (s : String)
  | num (n : Int)
  deriving DecidableEq, Repr

/-- JavaScript `toString` coercion applied by the normalizer to numeric values. -/
def JPrim.toStr : JPrim → String
  | .str s => s
  | .num n => toString n

/-- A `string | string[]` union value (used by `current.text` / `current.value`). -/
inductive SV where
  | s (v : String)
  | a (l : List String)
  deriving DecidableEq, Repr

/-- One selectable option record. `text`/`value` are `Option String` because the
normalizer can produce `undefined` fields when a raw item has neither `text` nor
`value`. -/
structure VariableOption where
  text : Option String
  value : Option String
  selected : Bool
  isNone : Bool := false
  deriving DecidableEq, Repr

/-- A tag record; `values` is optional (it is absent on tags freshly built by the
`updateVariableTags` branch). -/
structure VariableTag where
  text : Option String
  selected : Bool
  values : Option (List String) := none
  deriving DecidableEq, Repr

/-- The `current` selection snapshot (a `VariableOption` used with
`string | string[]` text/value and an optional `tags` array in the source). -/
structure CurrentValue where
  text : Option SV := none
  value : Option SV := none
  tags : List VariableTag := []
  deriving DecidableEq, Repr

/-- Modelled from the spec: the `Deferred` initialization lock imported from
`../deferred`, whose implementation is outside this excerpt. It has exactly two
states, pending and resolved; `resolve()` moves a pending lock to resolved and is
an idempotent no-op on an already-resolved lock. -/
inductive Lock where
  | pending
  | resolved
  deriving DecidableEq, Repr

/-- Modelled from the spec: `Deferred.resolve()` (idempotent transition to the
resolved state). -/
def Lock.resolve : Lock → Lock
  | _ => .resolved

structure QueryVariableModel where
  global : Bool
  index : Int
  type : String
  name : String
  label : Option String
  hide : Nat
  skipUrlSync : Bool
  datasource : Option String
  query : String
  regex : String
  sort : Nat
  refresh : Nat
  multi : Bool
  includeAll : Bool
  allValue : Option String
  options : List VariableOption
  current : CurrentValue
  tags : List VariableTag
  useTags : Bool
  tagsQuery : String
  tagValuesQuery : String
  definition : String
  initLock : Option Lock := none
  deriving DecidableEq, Repr

structure QueryVariablePickerState where
  showDropDown : Bool
  linkText : Option SV
  selectedValues : List VariableOption
  selectedTags : List VariableTag
  searchQuery : Option String
  searchOptions : List VariableOption
  highlightIndex : Int
  tags : List VariableTag
  options : List VariableOption
  queryHasSearchFilter : Bool
  oldVariableText : Option SV
  deriving DecidableEq, Repr

structure QueryVariableState where
  picker : QueryVariablePickerState
  «variable» : QueryVariableModel
  deriving DecidableEq, Repr

/-- The modifier-key fields read from the DOM event in the `selectVariableOption`
payload. -/
structure SelectEvent where
  ctrlKey : Bool
  metaKey : Bool
  shiftKey : Bool
  deriving DecidableEq, Repr

/-- A raw metric-name record consumed by `metricNamesToVariableValues`. -/
structure MetricName where
  text : Option JPrim := none
  value : Option JPrim := none
  deriving DecidableEq, Repr

/-- A raw tag-query result record consumed by the `updateVariableTags` branch. -/
structure TagResult where
  text : Option String := none
  deriving DecidableEq, Repr

/-- The tagged union of all actions the reducers match on; `unhandled` stands for
every action kind matched by none of the predicates. Routed variants carry the
`(type, name)` pair found in their payload. -/
inductive Action where
  | addVariable (global : Bool) (index : Int) (model : QueryVariableModel)
  | updateVariableOptions (varType varName : String) (results : List MetricName)
  | updateVariableTags (varType varName : String) (results : List TagResult)
  | setCurrentVariableValue (varType varName : String) (current : CurrentValue)
  | setInitLock (varType varName : String)
  | resolveInitLock (varType varName : String)
  | removeInitLock (varType varName : String)
  | selectVariableOption (varType varName : String) (option : VariableOption)
      (forceSelect : Bool) (event : SelectEvent)
  | showQueryVariableDropDown (varType varName : String)
  | hideQueryVariableDropDown (varType varName : String)
  | unhandled
  deriving DecidableEq, Repr

def initialQueryVariablePickerState : QueryVariablePickerState :=
  { highlightIndex := -1
    linkText := none
    queryHasSearchFilter := false
    searchOptions := []
    searchQuery := none
    selectedTags := []
    selectedValues := []
    showDropDown := false
    tags := []
    options := []
    oldVariableText := none }

def initialQueryVariableModelState : QueryVariableModel :=
  { global := false
    index := -1
    type := "query"
    name := ""
    label := none
    hide := 0
    skipUrlSync := false
    datasource := none
    query := ""
    regex := ""
    sort := 0
    refresh := 0
    multi := false
    includeAll := false
    allValue := none
    options := []
    current := {}
    tags := []
    useTags := false
    tagsQuery := ""
    tagValuesQuery := ""
    definition := ""
    initLock := none }

def initialQueryVariableState : QueryVariableState :=
  { picker := initialQueryVariablePickerState
    «variable» := initialQueryVariableModelState }

def ALL_VARIABLE_TEXT : String := "All"
def ALL_VARIABLE_VALUE : String := "$__all"
def NONE_VARIABLE_TEXT : String := "None"
def NONE_VARIABLE_VALUE : String := ""

/-! ### Option Sorter (lines 106-136) -/

/-- Stable insertion of one element: `x` goes before the first `y` with `le x y`. -/
def sortInsert (le : α → α → Bool) (x : α) : List α → List α
  | [] => [x]
  | y :: ys => if le x y then x :: y :: ys else y :: sortInsert le x ys

/-- `_.sortBy` collaborator: a stable sort by the boolean preorder `le`
(lodash's `sortBy` is documented stable). -/
def sortBy (le : α → α → Bool) : List α → List α
  | [] => []
  | x :: xs => sortInsert le x (sortBy le xs)

/-- lodash `compareAscending` restricted to the `text` property: defined strings
compare lexicographically, `undefined` sorts after every defined string. -/
def optTextLe (a b : Option String) : Bool :=
  match a, b with
  | none, none => true
  | none, some _ => false
  | some _, none => true
  | some x, some y => decide (x ≤ y)

/-- Sort key of `sortType = 2`: the first maximal digit run of the text, matching
the regex `.*?(\d+).*` followed by `parseInt`; `-1` when the text has no digit. -/
def firstNumber (s : String) : Int :=
  let ds := (s.toList.dropWhile (fun c => !c.isDigit)).takeWhile (fun c => c.isDigit)
  if ds.isEmpty then -1
  else Int.ofNat (ds.foldl (fun n c => n * 10 + (c.toNat - 48)) 0)

/-- Sort key of `sortType = 3`: `_.toLower(opt.text)` (lodash coerces `undefined`
to the empty string before lowercasing). -/
def toLowerKey (t : Option String) : String :=
  (t.getD "").toLower

/-- `sortVariableValues` (lines 106-136). `sortType = 2` reads `opt.text.match`,
which throws on an `undefined` text, hence the `Option` result; lodash computes
all sort keys before comparing, so the throw happens whenever any text is
`undefined`, modelled by `mapM`. -/
def sortVariableValues (options : List VariableOption) (sortOrder : Nat) :
    Option (List VariableOption) :=
  if sortOrder = 0 then
    some options
  else
    let sortType := (sortOrder + 1) / 2
    let reverseSort := sortOrder % 2 = 0
    do
      let sorted ←
        if sortType = 1 then
          some (sortBy (fun a b => optTextLe a.text b.text) options)
        else if sortType = 2 then do
          let keyed ← options.mapM (fun o => o.text.map (fun t => (firstNumber t, o)))
          some ((sortBy (fun a b => decide (a.1 ≤ b.1)) keyed).map (fun p => p.2))
        else if sortType = 3 then
          some (sortBy (fun a b => decide (toLowerKey a.text ≤ toLowerKey b.text)) options)
        else
          some options
      some (if reverseSort then sorted.reverse else sorted)

/-! ### Result Normalizer (lines 138-175) -/

/-- `_.uniqBy` collaborator: keep the first occurrence of each key, where `seen`
accumulates the keys already emitted. -/
def uniqByAux (key : α → β) [DecidableEq β] (seen : List β) : List α → List α
  | [] => []
  | a :: as =>
    if key a ∈ seen then uniqByAux key seen as
    else a :: uniqByAux key (key a :: seen) as

/-- `_.uniqBy(l, key)`: deduplicate by `key`, first occurrence wins. -/
def uniqBy (key : α → β) [DecidableEq β] (l : List α) : List α :=
  uniqByAux key [] l

/-- The compiled regex: `exec` applied to the (possibly `undefined`) value,
returning `null` (no match) or the match array. -/
def RegexExec := Option String → Option (List String)

/-- One iteration of the normalizer loop (lines 145-171): derive `text`/`value`
with mutual fallback, stringify numbers, then apply the optional regex; `none`
means the item is dropped (`continue`). -/
def processItem (regex : Option RegexExec) (item : MetricName) : Option VariableOption :=
  let text := (if item.text.isSome then item.text else item.value).map JPrim.toStr
  let value := (if item.value.isSome then item.value else item.text).map JPrim.toStr
  match regex with
  | none => some { text := text, value := value, selected := false }
  | some exec =>
    match exec value with
    | none => none
    | some matchesArr =>
      if h : 1 < matchesArr.length then
        some { text := some (matchesArr.get ⟨1, h⟩), value := some (matchesArr.get ⟨1, h⟩),
               selected := false }
      else
        some { text := text, value := value, selected := false }

/-- The option built from one raw item when no regex is configured. -/
def buildOption (item : MetricName) : VariableOption :=
  { text := (if item.text.isSome then item.text else item.value).map JPrim.toStr
    value := (if item.value.isSome then item.value else item.text).map JPrim.toStr
    selected := false }

section WithRegexCollaborator

/- The external collaborators `templateSrv.replace` composed with
`stringToJsRegex` (both outside this excerpt): compile a regex source into an
executable matcher. Every definition below is parameterized by it. -/
variable (compileRegex : String → RegexExec)

/-- `metricNamesToVariableValues` (lines 138-175). -/
def metricNamesToVariableValues (variableRegEx : String) (sort : Nat)
    (metricNames : List MetricName) : Option (List VariableOption) :=
  let regex : Option RegexExec :=
    if variableRegEx ≠ "" then some (compileRegex variableRegEx) else none
  let options := metricNames.filterMap (processItem regex)
  sortVariableValues (uniqBy (fun o => o.value) options) sort

end WithRegexCollaborator

/-! ### Post-processing pipeline (lines 29-34 and 177-247) -/

/-- The inner loop of lines 195-201: scan `current.tags` for `option.value`;
`none` models the `TypeError` thrown by `tag.values.findIndex` when `values` is
absent; `some false` means the value was found in a tag (option filtered out). -/
def tagFilterLoop (value : Option String) : List VariableTag → Option Bool
  | [] => some true
  | tag :: rest =>
    match tag.values with
    | none => none
    | some vs =>
      if (vs.findIdx? (fun v => some v = value)).isSome then some false
      else tagFilterLoop value rest

/-- The `options.filter` of lines 191-203, threaded through `Option` because the
predicate can throw; unselected options never reach the tag loop. -/
def filterSelectedNotInTag (tags : List VariableTag) :
    List VariableOption → Option (List VariableOption)
  | [] => some []
  | option :: rest =>
    match (if !option.selected then some false else tagFilterLoop option.value tags) with
    | none => none
    | some keep =>
      match filterSelectedNotInTag tags rest with
      | none => none
      | some others => some (if keep then option :: others else others)

/-- `Array.prototype.join(' + ')`, which renders `undefined` elements as the
empty string. -/
def joinPlus (texts : List (Option String)) : String :=
  String.intercalate " + " (texts.map (fun t => t.getD ""))

/-- `updateLinkText` (lines 177-217). -/
def updateLinkText (state : QueryVariableState) : Option QueryVariableState :=
  let current := state.«variable».current
  let options := state.«variable».options
  if current.tags.length = 0 then
    some { state with picker := { state.picker with linkText := current.text } }
  else do
    let selectedAndNotInTag ← filterSelectedNotInTag current.tags options
    let currentTexts := selectedAndNotInTag.map (fun s => s.text)
    let newLinkText := joinPlus currentTexts
    some { state with picker := { state.picker with
      linkText := some (.s (if 0 < newLinkText.length then newLinkText ++ " + "
                            else newLinkText)) } }

/-- `updateSelectedValues` (lines 219-227). -/
def updateSelectedValues (state : QueryVariableState) : QueryVariableState :=
  { state with picker := { state.picker with
      selectedValues := state.«variable».options.filter (fun o => o.selected) } }

/-- `updateSelectedTags` (lines 229-237). -/
def updateSelectedTags (state : QueryVariableState) : QueryVariableState :=
  { state with picker := { state.picker with
      selectedTags := state.«variable».tags.filter (fun t => t.selected) } }

/-- `updateOptions` (lines 239-247): cap the picker display list at 1000. -/
def updateOptions (state : QueryVariableState) : QueryVariableState :=
  { state with picker := { state.picker with
      options := state.«variable».options.take
        (min state.«variable».options.length 1000) } }

/-- `appyStateChanges` (lines 30-34), with the mutate-state functions lifted into
`Option` so that a throwing step aborts the pipeline. -/
def appyStateChanges (state : QueryVariableState)
    (args : List (QueryVariableState → Option QueryVariableState)) :
    Option QueryVariableState :=
  args.foldl (fun all cur => all >>= cur) (some state)

/-- The four post-processing steps passed to `appyStateChanges` at every call
site (lines 367, 419, 442, 448), in source order. -/
def postProcessors : List (QueryVariableState → Option QueryVariableState) :=
  [updateLinkText,
   fun s => some (updateOptions s),
   fun s => some (updateSelectedValues s),
   fun s => some (updateSelectedTags s)]

/-! ### Instance Reducer (lines 251-452) -/

/-- The text coercion performed on the `setCurrentVariableValue` payload
(lines 335-339). -/
def coerceCurrentText (current : CurrentValue) : CurrentValue :=
  match current.text with
  | some (.a ts) =>
    if 0 < ts.length then { current with text := some (.s (String.intercalate " + " ts)) }
    else coerceTextFromValue current
  | _ => coerceTextFromValue current
where
  /-- The `else if` arm of line 337. -/
  coerceTextFromValue (current : CurrentValue) : CurrentValue :=
    match current.value with
    | some (.a vs) =>
      if vs.head? = some ALL_VARIABLE_VALUE then current
      else { current with text := some (.s (String.intercalate " + " vs)) }
    | _ => current

/-- The per-option `selected` recomputation of lines 346-363: true iff the option
value occurs in (array) or strictly equals (scalar, including the
`undefined === undefined` case) `current.value`. -/
def currentMatches (cv : Option SV) (ov : Option String) : Bool :=
  match cv with
  | some (.a l) => l.any (fun v => ov = some v)
  | some (.s v) => ov = some v
  | none => ov = none

/-- The per-option map of the `selectVariableOption` branch (lines 387-407). -/
def selectOptionMap (multi : Bool) (option : VariableOption) (forceSelect : Bool)
    (event : SelectEvent) (o : VariableOption) : VariableOption :=
  if o.value ≠ option.value then
    let selected :=
      if o.text = some ALL_VARIABLE_TEXT ∨ option.text = some ALL_VARIABLE_TEXT then false
      else if !multi then false
      else if event.ctrlKey || event.metaKey || event.shiftKey then false
      else o.selected
    { o with selected := selected }
  else
    let selected := if forceSelect then true else if multi then !option.selected else true
    { o with selected := selected }

/-- The zero-selection fallback of lines 408-410: mutate the first option's
`selected` flag to true. -/
def selectFirstFallback (newOptions : List VariableOption) : List VariableOption :=
  if 0 < newOptions.length ∧ (newOptions.filter (fun o => o.selected)).length = 0 then
    match newOptions with
    | [] => []
    | o :: rest => { o with selected := true } :: rest
  else newOptions

section WithRegexCollaborator2

variable (compileRegex : String → RegexExec)

/-- `queryVariableReducer` (lines 251-452). The result is `none` exactly when the
JavaScript code throws (null `initLock` dereference, `opt.text.match` on an
undefined text, or `tag.values.findIndex` on a tag without `values`). -/
def queryVariableReducer (state : QueryVariableState) (action : Action) :
    Option QueryVariableState :=
  match action with
  | .addVariable global index model =>
    some { state with «variable» := { state.«variable» with
      global := global
      index := index
      type := model.type
      name := model.name
      label := model.label
      hide := model.hide
      skipUrlSync := model.skipUrlSync
      datasource := model.datasource
      query := model.query
      regex := model.regex
      sort := model.sort
      refresh := model.refresh
      multi := model.multi
      includeAll := model.includeAll
      allValue := model.allValue
      options := model.options
      current := model.current
      tags := model.tags
      useTags := model.useTags
      tagsQuery := model.tagsQuery
      tagValuesQuery := model.tagValuesQuery
      definition := model.definition } }
  | .updateVariableOptions _ _ results => do
    let options ← metricNamesToVariableValues compileRegex state.«variable».regex
      state.«variable».sort results
    let options :=
      if state.«variable».includeAll then
        { text := some ALL_VARIABLE_TEXT, value := some ALL_VARIABLE_VALUE,
          selected := false : VariableOption } :: options
      else options
    let options :=
      if options.length = 0 then
        [{ text := some NONE_VARIABLE_TEXT, value := some NONE_VARIABLE_VALUE,
           isNone := true, selected := false : VariableOption }]
      else options
    some { state with «variable» := { state.«variable» with options := options } }
  | .updateVariableTags _ _ results =>
    let tags : List VariableTag :=
      results.map (fun r => { text := r.text, selected := false })
    some { state with «variable» := { state.«variable» with tags := tags } }
  | .setCurrentVariableValue _ _ current0 =>
    let current := coerceCurrentText current0
    let newState :=
      { state with «variable» := { state.«variable» with
          current := current
          options := state.«variable».options.map (fun option =>
            { option with selected := currentMatches current.value option.value }) } }
    appyStateChanges newState postProcessors
  | .setInitLock _ _ =>
    some { state with «variable» := { state.«variable» with initLock := some .pending } }
  | .resolveInitLock _ _ =>
    match state.«variable».initLock with
    | none => none
    | some lock =>
      some { state with «variable» := { state.«variable» with
        initLock := some lock.resolve } }
  | .removeInitLock _ _ =>
    some { state with «variable» := { state.«variable» with initLock := none } }
  | .selectVariableOption _ _ option forceSelect event =>
    let multi := state.«variable».multi
    let newOptions :=
      selectFirstFallback
        (state.«variable».options.map (selectOptionMap multi option forceSelect event))
    let newState :=
      { state with «variable» := { state.«variable» with options := newOptions } }
    appyStateChanges newState postProcessors
  | .showQueryVariableDropDown _ _ =>
    let oldVariableText := state.«variable».current.text
    let highlightIndex : Int := -1
    let showDropDown := true
    let searchQuery : Option String :=
      if state.picker.queryHasSearchFilter ∧ state.picker.searchQuery ≠ none ∧
          state.picker.searchQuery ≠ some "" then
        state.picker.searchQuery
      else some ""
    let newState :=
      { state with picker := { state.picker with
          oldVariableText := oldVariableText
          highlightIndex := highlightIndex
          searchQuery := searchQuery
          showDropDown := showDropDown } }
    appyStateChanges newState postProcessors
  | .hideQueryVariableDropDown _ _ =>
    let newState := { state with picker := { state.picker with showDropDown := false } }
    appyStateChanges newState postProcessors
  | .unhandled => some state

end WithRegexCollaborator2

/-! ### Collection Router (lines 454-539) -/

def initialQueryVariablesState : List QueryVariableState := []

/-- `state[instanceIndex]` when present, otherwise the reducer's default first
parameter (`state = initialQueryVariableState`), which a JavaScript call with
`undefined` would pick up. -/
def childStateOrDefault (inst : Option QueryVariableState) : QueryVariableState :=
  match inst with
  | some st => st
  | none => initialQueryVariableState

/-- `Array.prototype.findIndex`: index of the first element satisfying `p`, `-1`
when there is none. -/
def jsFindIndex (p : QueryVariableState → Bool) : List QueryVariableState → Int
  | [] => -1
  | x :: xs =>
    if p x then 0
    else
      let r := jsFindIndex p xs
      if r < 0 then -1 else r + 1

/-- The declared `type` carried by an action's payload (`model.type` for
`addVariable`, `payload.variable.type` or `payload.type` for the routed
actions); `none` for actions this module does not match. -/
def Action.declaredType : Action → Option String
  | .addVariable _ _ model => some model.type
  | .updateVariableOptions t _ _ => some t
  | .updateVariableTags t _ _ => some t
  | .setCurrentVariableValue t _ _ => some t
  | .setInitLock t _ => some t
  | .resolveInitLock t _ => some t
  | .removeInitLock t _ => some t
  | .selectVariableOption t _ _ _ _ => some t
  | .showQueryVariableDropDown t _ => some t
  | .hideQueryVariableDropDown t _ => some t
  | .unhandled => none

/-- The routing `name` carried by an action's payload. -/
def Action.routingName : Action → Option String
  | .addVariable _ _ model => some model.name
  | .updateVariableOptions _ n _ => some n
  | .updateVariableTags _ n _ => some n
  | .setCurrentVariableValue _ n _ => some n
  | .setInitLock _ n => some n
  | .resolveInitLock _ n => some n
  | .removeInitLock _ n => some n
  | .selectVariableOption _ n _ _ _ => some n
  | .showQueryVariableDropDown _ n => some n
  | .hideQueryVariableDropDown _ n => some n
  | .unhandled => none

/-- Whether the instance reducer ends this action's branch with the
post-processing pipeline. -/
def Action.runsPipeline : Action → Bool
  | .setCurrentVariableValue _ _ _ => true
  | .selectVariableOption _ _ _ _ _ => true
  | .showQueryVariableDropDown _ _ => true
  | .hideQueryVariableDropDown _ _ => true
  | _ => false

section WithRegexCollaborator3

variable (compileRegex : String → RegexExec)

/-- The `state.map` of lines 468-477, with `index` counting from the position
`k`. At the matched index the child reducer runs on `instanceState` (falling
back to the reducer's default parameter were it `undefined`, which never happens
for a non-negative found index); every other element is returned as-is. -/
def mapChildren (instanceIndex : Int) (instanceState : Option QueryVariableState)
    (action : Action) : Nat → List QueryVariableState →
    Option (List QueryVariableState)
  | _, [] => some []
  | index, v :: rest =>
    match (if (index : Int) ≠ instanceIndex then some v
        else queryVariableReducer compileRegex (childStateOrDefault instanceState) action) with
    | none => none
    | some hd =>
      match mapChildren instanceIndex instanceState action (index + 1) rest with
      | none => none
      | some tl => some (hd :: tl)

/-- `updateChildState` (lines 456-478). -/
def updateChildState (state : List QueryVariableState) (type name : String)
    (action : Action) : Option (List QueryVariableState) :=
  if type ≠ "query" then some state
  else
    let instanceIndex := jsFindIndex (fun child => child.«variable».name = name) state
    let instanceState : Option QueryVariableState :=
      if instanceIndex < 0 then none else state[instanceIndex.toNat]?
    mapChildren compileRegex instanceIndex instanceState action 0 state

/-- `queryVariablesReducer` (lines 480-539). -/
def queryVariablesReducer (state : List QueryVariableState) (action : Action) :
    Option (List QueryVariableState) :=
  match action with
  | .addVariable _ _ model =>
    if model.type ≠ "query" then some state
    else do
      let vInstance ← queryVariableReducer compileRegex initialQueryVariableState action
      some (state ++ [vInstance])
  | .updateVariableOptions t n _ => updateChildState compileRegex state t n action
  | .updateVariableTags t n _ => updateChildState compileRegex state t n action
  | .setCurrentVariableValue t n _ => updateChildState compileRegex state t n action
  | .setInitLock t n => updateChildState compileRegex state t n action
  | .resolveInitLock t n => updateChildState compileRegex state t n action
  | .removeInitLock t n => updateChildState compileRegex state t n action
  | .selectVariableOption t n _ _ _ => updateChildState compileRegex state t n action
  | .showQueryVariableDropDown t n => updateChildState compileRegex state t n action
  | .hideQueryVariableDropDown t n => updateChildState compileRegex state t n action
  | .unhandled => some state

/-- The states of one instance reachable from the initial state through the
instance reducer's events. -/
inductive Reachable : QueryVariableState → Prop where
  | init : Reachable initialQueryVariableState
  | step {s : QueryVariableState} {action : Action} {s2 : QueryVariableState} :
      Reachable s → queryVariableReducer compileRegex s action = some s2 → Reachable s2

end WithRegexCollaborator3

/-! ### Concrete instances used by witnesses and counterexamples -/

/-- A degenerate regex collaborator (never consulted in the concrete runs below,
all of which use an empty regex source). -/
def noRx : String → RegexExec := fun _ _ => none

/-- A plain option whose text and value coincide. -/
def mkOpt (v : String) (sel : Bool) : VariableOption :=
  { text := some v, value := some v, selected := sel }

/-- An instance whose init lock is present and already resolved. -/
def resolvedLockState : QueryVariableState :=
  { initialQueryVariableState with «variable» :=
    { initialQueryVariableModelState with initLock := some .resolved } }

/-- An instance with a single, currently selected option `a`. -/
def oneOptState : QueryVariableState :=
  { initialQueryVariableState with «variable» :=
    { initialQueryVariableModelState with options := [mkOpt "a" true] } }

/-- A `SetCurrent` whose value `b` matches no option of `oneOptState`. -/
def setCurrentB : Action :=
  .setCurrentVariableValue "query" "" { text := some (.s "b"), value := some (.s "b") }

/-- A `SelectOption` choosing the (present) option `a`. -/
def selectA : Action :=
  .selectVariableOption "query" "" (mkOpt "a" true) false ⟨false, false, false⟩

def selectARes : QueryVariableState :=
  (queryVariableReducer noRx oneOptState selectA).getD initialQueryVariableState

/-- One raw result with text and value `a`. -/
def rawA : MetricName := { text := some (.str "a"), value := some (.str "a") }

/-- One raw result with text and value `b`. -/
def rawB : MetricName := { text := some (.str "b"), value := some (.str "b") }

/-- The duplicated raw list `[a, a, b]` from the spec's dedup example. -/
def dupNames : List MetricName := [rawA, rawA, rawB]

/-- The normalizer's output on `dupNames` (no regex, sort disabled). -/
def dedupRes : List VariableOption :=
  (metricNamesToVariableValues noRx "" 0 dupNames).getD []

/-- The `ReplaceOptionsFromResults` event filling in one option. -/
def updateOptsA : Action := .updateVariableOptions "query" "" [rawA]

def hideDropDown : Action := .hideQueryVariableDropDown "query" ""

def hideRes : QueryVariableState :=
  (queryVariableReducer noRx initialQueryVariableState hideDropDown).getD
    initialQueryVariableState

/-- A non-multi instance holding options `a` and `b` (distinct values). -/
def twoOptState : QueryVariableState :=
  { initialQueryVariableState with «variable» :=
    { initialQueryVariableModelState with options := [mkOpt "a" false, mkOpt "b" false] } }

def selectB : Action :=
  .selectVariableOption "query" "" (mkOpt "b" false) false ⟨false, false, false⟩

def selectBRes : QueryVariableState :=
  (queryVariableReducer noRx twoOptState selectB).getD initialQueryVariableState

/-- The "All" option as built by the reducer. -/
def allOption (sel : Bool) : VariableOption :=
  { text := some ALL_VARIABLE_TEXT, value := some ALL_VARIABLE_VALUE, selected := sel }

/-- A multi-select instance holding `b` and a currently selected "All" option. -/
def multiAllState : QueryVariableState :=
  { initialQueryVariableState with «variable» :=
    { initialQueryVariableModelState with
      multi := true
      options := [mkOpt "b" false, allOption true] } }

/-- Choosing "All" again (its rendered copy is selected), without forceSelect. -/
def selectAllToggle : Action :=
  .selectVariableOption "query" "" (allOption true) false ⟨false, false, false⟩

/-- Choosing "All" while its rendered copy is unselected. -/
def selectAllOn : Action :=
  .selectVariableOption "query" "" (allOption false) false ⟨false, false, false⟩

def selectAllOnRes : QueryVariableState :=
  (queryVariableReducer noRx multiAllState selectAllOn).getD initialQueryVariableState

/-- Options whose texts embed numbers, exercising the numeric sort. -/
def numOpts : List VariableOption :=
  [mkOpt "x10" false, mkOpt "x2" false, mkOpt "b1" false]

/-- A one-instance collection (the instance is named `"a"`). -/
def namedAState : QueryVariableState :=
  { initialQueryVariableState with «variable» :=
    { initialQueryVariableModelState with name := "a" } }

/-- An event routed to another state-machine kind. -/
def otherTypeAct : Action := .setInitLock "other" "a"

/-- A `query` event whose name matches no instance. -/
def missingNameAct : Action := .setInitLock "query" "zzz"

def missingNameRes : List QueryVariableState :=
  (queryVariablesReducer noRx [namedAState] missingNameAct).getD []

/-- A tag without a `values` array, marked selected. -/
def valuelessTag : VariableTag := { text := some "t", selected := true, values := none }

/-- Current selection carrying `valuelessTag`, with no option selected: the link
text recomputation never dereferences the missing `values`. -/
def tagNoDerefState : QueryVariableState :=
  { initialQueryVariableState with «variable» :=
    { initialQueryVariableModelState with current :=
      { text := some (.s "a"), value := some (.s "a"), tags := [valuelessTag] } } }

/-- Same current selection but with a selected option, whose value must be looked
up inside `valuelessTag.values`: the recomputation throws. -/
def tagDerefState : QueryVariableState :=
  { initialQueryVariableState with «variable» :=
    { initialQueryVariableModelState with
      options := [mkOpt "a" true]
      current :=
      { text := some (.s "a"), value := some (.s "a"), tags := [valuelessTag] } } }

/-- A selection current whose single tag does carry a `values` array. -/
def tagWithValuesState : QueryVariableState :=
  { initialQueryVariableState with «variable» :=
    { initialQueryVariableModelState with
      options := [mkOpt "a" true]
      current :=
      { text := some (.s "a"), value := some (.s "a"),
        tags := [{ text := some "t", selected := true, values := some ["x"] }] } } }

/-! ### Helper lemmas about the post-processing pipeline -/

theorem updateLinkText_fields {s s2 : QueryVariableState} (h : updateLinkText s = some s2) :
    s2.«variable» = s.«variable» ∧ s2.picker.options = s.picker.options := by
  simp only [updateLinkText] at h
  split at h
  · cases h
    exact ⟨rfl, rfl⟩
  · cases hf : filterSelectedNotInTag s.«variable».current.tags s.«variable».options with
    | none => rw [hf] at h; cases h
    | some l =>
      rw [hf] at h
      cases h
      exact ⟨rfl, rfl⟩

theorem appyStateChanges_from_none (fs : List (QueryVariableState → Option QueryVariableState)) :
    List.foldl (fun all cur => all >>= cur) none fs = none := by
  induction fs with
  | nil => rfl
  | cons f fs ih => exact ih

theorem appyStateChanges_cons (s : QueryVariableState)
    (f : QueryVariableState → Option QueryVariableState)
    (fs : List (QueryVariableState → Option QueryVariableState)) :
    appyStateChanges s (f :: fs) = Option.bind (f s) (fun s1 => appyStateChanges s1 fs) := by
  show List.foldl _ (some s >>= f) fs = _
  rw [show some s >>= f = f s from rfl]
  cases hf : f s with
  | none => exact appyStateChanges_from_none fs
  | some s1 => rfl

theorem appyPost_fields {s s2 : QueryVariableState}
    (h : appyStateChanges s postProcessors = some s2) :
    s2.«variable» = s.«variable» ∧
    s2.picker.options = s.«variable».options.take (min s.«variable».options.length 1000) := by
  rw [postProcessors, appyStateChanges_cons] at h
  cases hL : updateLinkText s with
  | none => rw [hL] at h; cases h
  | some s1 =>
    rw [hL] at h
    simp only [Option.some_bind] at h
    rw [appyStateChanges_cons] at h
    simp only [Option.some_bind] at h
    rw [appyStateChanges_cons] at h
    simp only [Option.some_bind] at h
    rw [appyStateChanges_cons] at h
    simp only [Option.some_bind, appyStateChanges, List.foldl] at h
    cases h
    obtain ⟨hv, _⟩ := updateLinkText_fields hL
    exact ⟨hv, by simp [updateSelectedTags, updateSelectedValues, updateOptions, hv]⟩

theorem select_options_eq {cr : String → RegexExec} {s : QueryVariableState}
    {t n : String} {opt : VariableOption} {fs : Bool} {ev : SelectEvent}
    {s2 : QueryVariableState}
    (h : queryVariableReducer cr s (.selectVariableOption t n opt fs ev) = some s2) :
    s2.«variable».options =
      selectFirstFallback (s.«variable».options.map
        (selectOptionMap s.«variable».multi opt fs ev)) := by
  simp only [queryVariableReducer] at h
  rw [(appyPost_fields h).1]

theorem selectFirstFallback_exists {l : List VariableOption} (h : l ≠ []) :
    ∃ o ∈ selectFirstFallback l, o.selected = true := by
  unfold selectFirstFallback
  split
  · match l, h with
    | o :: rest, _ => exact ⟨{ o with selected := true }, List.mem_cons_self _ _, rfl⟩
  · next cond =>
    push_neg at cond
    have hlen : 0 < l.length := List.length_pos.2 h
    have hfil : l.filter (fun o => o.selected) ≠ [] := by
      intro hnil
      exact cond hlen (by rw [hnil]; rfl)
    obtain ⟨o, ho⟩ := List.exists_mem_of_ne_nil _ hfil
    obtain ⟨hmem, hsel⟩ := List.mem_filter.1 ho
    exact ⟨o, hmem, hsel⟩

/-! ### C1: resolving an absent or already-resolved init lock -/

/-- C1 counterexample: the claim says resolving an absent (`null`) `initLock` is
a no-op that raises no error, but the reducer dereferences `null`
(`state.variable.initLock.resolve()`) and throws, modelled by `none`. -/
theorem C1_resolve_absent_throws :
    queryVariableReducer noRx initialQueryVariableState (.resolveInitLock "query" "x")
      = none := rfl

/-- C1 (amended): applying `ResolveInitLock` when the instance's `initLock` is
present and already resolved is a value-level no-op (the state comes back
unchanged) and raises no error; the absent (`null`) case instead throws. -/
theorem C1_resolve_resolved_noop (cr : String → RegexExec) (s : QueryVariableState)
    (t n : String) (h : s.«variable».initLock = some Lock.resolved) :
    queryVariableReducer cr s (.resolveInitLock t n) = some s := by
  have heta : { s.«variable» with initLock := some Lock.resolved } = s.«variable» := by
    rw [← h]
  simp [queryVariableReducer, h, Lock.resolve, heta]

/-- C1 witness: the no-op is observed on a concrete state with a resolved lock. -/
theorem C1_witness :
    queryVariableReducer noRx resolvedLockState (.resolveInitLock "query" "x")
      = some resolvedLockState :=
  C1_resolve_resolved_noop noRx resolvedLockState "query" "x" rfl

/-! ### C2: non-empty selection after selection-affecting transitions -/

/-- C2 counterexample: `SetCurrent` with a value matching no option leaves a
non-empty option list (length 1) with zero selected options, contradicting the
claim for the `SetCurrent` transition. -/
theorem C2_setCurrent_deselects_all :
    (queryVariableReducer noRx oneOptState setCurrentB).map
      (fun s => (s.«variable».options.length,
                 s.«variable».options.filter (fun o => o.selected)))
      = some (1, []) := rfl

/-- C2 (amended): after a `SelectOption` transition on a state whose option list
is non-empty, at least one option is selected (the zero-selection fallback
guarantees it); the guarantee does not extend to `SetCurrent`, which can leave
every option unselected. -/
theorem C2_selectOption_nonempty_selection (cr : String → RegexExec)
    (s : QueryVariableState) (t n : String) (opt : VariableOption) (fs : Bool)
    (ev : SelectEvent) (s2 : QueryVariableState)
    (hne : s.«variable».options ≠ [])
    (hred : queryVariableReducer cr s (.selectVariableOption t n opt fs ev) = some s2) :
    ∃ o ∈ s2.«variable».options, o.selected = true := by
  rw [select_options_eq hred]
  exact selectFirstFallback_exists (by simpa using hne)

/-- C2 witness: selecting option `a` on the one-option state yields a state with
a selected option. -/
theorem C2_witness : ∃ o ∈ selectARes.«variable».options, o.selected = true :=
  C2_selectOption_nonempty_selection noRx oneOptState "query" "" (mkOpt "a" true)
    false ⟨false, false, false⟩ selectARes (by decide) rfl

/-! ### C3: the 1000-element display cap on `picker.options` -/

theorem pipeline_picker_options (cr : String → RegexExec) {s : QueryVariableState}
    {a : Action} {s2 : QueryVariableState}
    (hp : a.runsPipeline = true) (h : queryVariableReducer cr s a = some s2) :
    s2.picker.options = s2.«variable».options.take (min s2.«variable».options.length 1000) := by
  cases a with
  | setCurrentVariableValue t n c =>
    simp only [queryVariableReducer] at h
    rw [(appyPost_fields h).1]
    exact (appyPost_fields h).2
  | selectVariableOption t n o f e =>
    simp only [queryVariableReducer] at h
    rw [(appyPost_fields h).1]
    exact (appyPost_fields h).2
  | showQueryVariableDropDown t n =>
    simp only [queryVariableReducer] at h
    rw [(appyPost_fields h).1]
    exact (appyPost_fields h).2
  | hideQueryVariableDropDown t n =>
    simp only [queryVariableReducer] at h
    rw [(appyPost_fields h).1]
    exact (appyPost_fields h).2
  | addVariable g i m => simp [Action.runsPipeline] at hp
  | updateVariableOptions t n r => simp [Action.runsPipeline] at hp
  | updateVariableTags t n r => simp [Action.runsPipeline] at hp
  | setInitLock t n => simp [Action.runsPipeline] at hp
  | resolveInitLock t n => simp [Action.runsPipeline] at hp
  | removeInitLock t n => simp [Action.runsPipeline] at hp
  | unhandled => simp [Action.runsPipeline] at hp

theorem nonpipeline_picker (cr : String → RegexExec) {s : QueryVariableState}
    {a : Action} {s2 : QueryVariableState}
    (hp : a.runsPipeline = false) (h : queryVariableReducer cr s a = some s2) :
    s2.picker = s.picker := by
  cases a with
  | addVariable g i m =>
    simp only [queryVariableReducer] at h
    cases h; rfl
  | updateVariableOptions t n r =>
    simp only [queryVariableReducer] at h
    cases hm : metricNamesToVariableValues cr s.«variable».regex s.«variable».sort r with
    | none => rw [hm] at h; cases h
    | some opts => rw [hm] at h; cases h; rfl
  | updateVariableTags t n r =>
    simp only [queryVariableReducer] at h
    cases h; rfl
  | setInitLock t n =>
    simp only [queryVariableReducer] at h
    cases h; rfl
  | resolveInitLock t n =>
    simp only [queryVariableReducer] at h
    cases hl : s.«variable».initLock with
    | none => rw [hl] at h; cases h
    | some lock => rw [hl] at h; cases h; rfl
  | removeInitLock t n =>
    simp only [queryVariableReducer] at h
    cases h; rfl
  | unhandled =>
    simp only [queryVariableReducer] at h
    cases h; rfl
  | setCurrentVariableValue t n c => simp [Action.runsPipeline] at hp
  | selectVariableOption t n o f e => simp [Action.runsPipeline] at hp
  | showQueryVariableDropDown t n => simp [Action.runsPipeline] at hp
  | hideQueryVariableDropDown t n => simp [Action.runsPipeline] at hp

/-- C3 counterexample: one `ReplaceOptionsFromResults` step from the initial
state leaves `picker.options` stale (length 0) while
`min(variable.options.length, 1000)` is 1, so the claimed prefix equality fails
in a reachable state. -/
theorem C3_stale_picker_after_replaceOptions :
    (queryVariableReducer noRx initialQueryVariableState updateOptsA).map
      (fun s => (s.picker.options.length, min s.«variable».options.length 1000))
      = some (0, 1) ∧ (0 : Nat) ≠ 1 :=
  ⟨rfl, by decide⟩

/-- C3 (amended): in every reachable state `picker.options.length ≤ 1000`, and
after every transition that runs the post-processing pipeline (`SetCurrent`,
`SelectOption`, `OpenDropdown`, `CloseDropdown`) `picker.options` equals the
first `min(variable.options.length, 1000)` elements of `variable.options`;
`ReplaceOptionsFromResults` does not run the pipeline and leaves `picker.options`
stale. -/
theorem C3_display_cap (cr : String → RegexExec) :
    (∀ s, Reachable cr s → s.picker.options.length ≤ 1000) ∧
    (∀ (s : QueryVariableState) (a : Action) (s2 : QueryVariableState),
      a.runsPipeline = true → queryVariableReducer cr s a = some s2 →
      s2.picker.options = s2.«variable».options.take (min s2.«variable».options.length 1000)) := by
  constructor
  · intro s hr
    induction hr with
    | init => decide
    | @step s1 a s2 hr hred ih =>
      by_cases hp : a.runsPipeline = true
      · rw [pipeline_picker_options cr hp hred, List.length_take]
        omega
      · rw [nonpipeline_picker cr (by simpa using hp) hred]
        exact ih
  · intro s a s2 hp hred
    exact pipeline_picker_options cr hp hred

/-- C3 witness: the cap holds at the initial (reachable) state, and the prefix
equality holds after a concrete `CloseDropdown` transition. -/
theorem C3_witness :
    initialQueryVariableState.picker.options.length ≤ 1000 ∧
    hideRes.picker.options = hideRes.«variable».options.take
      (min hideRes.«variable».options.length 1000) :=
  ⟨(C3_display_cap noRx).1 _ Reachable.init,
   (C3_display_cap noRx).2 initialQueryVariableState hideDropDown hideRes rfl rfl⟩

/-! ### Helper lemmas about `selectOptionMap` and `selectFirstFallback` -/

theorem selectOptionMap_value (m : Bool) (opt : VariableOption) (fs : Bool)
    (ev : SelectEvent) (o : VariableOption) :
    (selectOptionMap m opt fs ev o).value = o.value := by
  unfold selectOptionMap; split <;> rfl

theorem selectOptionMap_text (m : Bool) (opt : VariableOption) (fs : Bool)
    (ev : SelectEvent) (o : VariableOption) :
    (selectOptionMap m opt fs ev o).text = o.text := by
  unfold selectOptionMap; split <;> rfl

theorem selectOptionMap_selected_match {m : Bool} {opt : VariableOption} {fs : Bool}
    {ev : SelectEvent} {o : VariableOption} (h : o.value = opt.value) :
    (selectOptionMap m opt fs ev o).selected =
      if fs then true else if m then !opt.selected else true := by
  unfold selectOptionMap
  rw [if_neg (fun hne => hne h)]

theorem selectOptionMap_selected_other_all {m : Bool} {opt : VariableOption} {fs : Bool}
    {ev : SelectEvent} {o : VariableOption} (hne : o.value ≠ opt.value)
    (hall : o.text = some ALL_VARIABLE_TEXT ∨ opt.text = some ALL_VARIABLE_TEXT) :
    (selectOptionMap m opt fs ev o).selected = false := by
  unfold selectOptionMap
  rw [if_pos hne]
  simp only [if_pos hall]

theorem selectOptionMap_selected_single {opt : VariableOption} {fs : Bool}
    {ev : SelectEvent} (o : VariableOption) :
    (selectOptionMap false opt fs ev o).selected = decide (o.value = opt.value) := by
  by_cases hv : o.value = opt.value
  · rw [selectOptionMap_selected_match hv]
    simp [hv]
  · unfold selectOptionMap
    rw [if_pos hv]
    simp [hv, ite_self]

theorem countP_value_tail_zero {as : List VariableOption} {v : Option String}
    (hnot : v ∉ as.map (fun o => o.value)) :
    as.countP (fun o => decide (o.value = v)) = 0 :=
  List.countP_eq_zero.2 (fun o ho => by
    simp only [decide_eq_true_eq]
    intro heq
    exact hnot (heq ▸ List.mem_map_of_mem _ ho))

theorem countP_value_le_one {l : List VariableOption} {v : Option String}
    (hn : (l.map (fun o => o.value)).Nodup) :
    l.countP (fun o => decide (o.value = v)) ≤ 1 := by
  induction l with
  | nil => simp
  | cons a as ih =>
    rw [List.map_cons, List.nodup_cons] at hn
    rw [List.countP_cons]
    by_cases hav : a.value = v
    · rw [countP_value_tail_zero (hav ▸ hn.1)]
      simp [hav]
    · have := ih hn.2
      simp [hav]
      omega

theorem countP_value_eq_one {l : List VariableOption} {v : Option String}
    (hn : (l.map (fun o => o.value)).Nodup) (hv : ∃ o ∈ l, o.value = v) :
    l.countP (fun o => decide (o.value = v)) = 1 := by
  induction l with
  | nil => obtain ⟨o, ho, -⟩ := hv; cases ho
  | cons a as ih =>
    rw [List.map_cons, List.nodup_cons] at hn
    rw [List.countP_cons]
    by_cases hav : a.value = v
    · rw [countP_value_tail_zero (hav ▸ hn.1)]
      simp [hav]
    · obtain ⟨o, ho, hov⟩ := hv
      rcases List.mem_cons.1 ho with rfl | hmem
      · exact absurd hov hav
      · rw [ih hn.2 ⟨o, hmem, hov⟩]
        simp [hav]

theorem selectFirstFallback_count {m : List VariableOption} (hne : m ≠ [])
    (hle : m.countP (fun o => o.selected) ≤ 1) :
    ((selectFirstFallback m).filter (fun o => o.selected)).length = 1 := by
  by_cases h0 : m.countP (fun o => o.selected) = 0
  · unfold selectFirstFallback
    rw [if_pos ⟨List.length_pos.2 hne,
      by rw [← List.countP_eq_length_filter]; exact h0⟩]
    cases m with
    | nil => exact absurd rfl hne
    | cons o rest =>
      have hrest : rest.countP (fun o => o.selected) = 0 := by
        rw [List.countP_cons] at h0; omega
      have hfil : List.filter (fun o => o.selected) rest = [] := by
        rw [← List.length_eq_zero, ← List.countP_eq_length_filter]
        exact hrest
      simp [List.filter_cons, hfil]
  · have h1 : m.countP (fun o => o.selected) = 1 := by omega
    unfold selectFirstFallback
    rw [if_neg (fun hc => by
      rw [← List.countP_eq_length_filter] at hc
      omega)]
    rw [← List.countP_eq_length_filter]
    exact h1

theorem selectFirstFallback_id {m : List VariableOption}
    (h : ∃ o ∈ m, o.selected = true) : selectFirstFallback m = m := by
  unfold selectFirstFallback
  rw [if_neg]
  rintro ⟨-, hf⟩
  obtain ⟨o, ho, hs⟩ := h
  rw [List.length_eq_zero] at hf
  have : o ∈ m.filter (fun o => o.selected) := List.mem_filter.2 ⟨ho, hs⟩
  rw [hf] at this
  cases this

/-! ### C5: single-select exclusivity -/

/-- C5: with `multi = false`, a non-empty option list free of duplicate values
has exactly one selected option after any `SelectOption` transition (for any
`forceSelect` flag and any modifier keys). -/
theorem C5_single_select_exclusive (cr : String → RegexExec) (s : QueryVariableState)
    (t n : String) (opt : VariableOption) (fs : Bool) (ev : SelectEvent)
    (s2 : QueryVariableState)
    (hmulti : s.«variable».multi = false)
    (hne : s.«variable».options ≠ [])
    (hnodup : (s.«variable».options.map (fun o => o.value)).Nodup)
    (hred : queryVariableReducer cr s (.selectVariableOption t n opt fs ev) = some s2) :
    (s2.«variable».options.filter (fun o => o.selected)).length = 1 := by
  rw [select_options_eq hred, hmulti]
  apply selectFirstFallback_count (by simpa using hne)
  rw [List.countP_map]
  calc (s.«variable».options.countP
          ((fun o => o.selected) ∘ selectOptionMap false opt fs ev))
      = s.«variable».options.countP (fun o => decide (o.value = opt.value)) :=
        List.countP_congr (fun o _ => by
          simp only [Function.comp_apply, selectOptionMap_selected_single])
    _ ≤ 1 := countP_value_le_one hnodup

/-- C5 witness: selecting `b` on the two-option single-select state leaves
exactly one option selected. -/
theorem C5_witness :
    (selectBRes.«variable».options.filter (fun o => o.selected)).length = 1 :=
  C5_single_select_exclusive noRx twoOptState "query" "" (mkOpt "b" false) false
    ⟨false, false, false⟩ selectBRes rfl (by decide) (by decide) rfl

/-! ### C6: "All"-option exclusivity -/

/-- C6 counterexample: on a multi-select state `[b, All(selected)]`, choosing the
"All" option (payload selected, `forceSelect = false`) toggles "All" off, the
zero-selection fallback re-selects the first option `b`, and the transition ends
with `b` — an option other than the chosen "All" — selected, contradicting the
claim that choosing "All" sets `selected = false` on every other option. -/
theorem C6_fallback_reselects_other :
    (queryVariableReducer noRx multiAllState selectAllToggle).map
      (fun s => s.«variable».options.map (fun o => (o.text, o.value, o.selected)))
      = some [(some "b", some "b", true), (some "All", some "$__all", false)] ∧
    (allOption true).text = some ALL_VARIABLE_TEXT ∧
    (some "b" : Option String) ≠ (allOption true).value :=
  ⟨rfl, rfl, by decide⟩

/-- C6 (amended): provided the chosen value occurs in the option list and the
chosen option's recomputed flag is selected (which holds whenever `forceSelect`
is set, or the instance is single-select, or the payload option was unselected),
choosing the "All" option sets `selected = false` on every other option, and
choosing any option other than "All" sets `selected = false` on every
"All"-titled option with a different value; without that proviso the
zero-selection fallback can re-select the first option. -/
theorem C6_all_option_exclusivity (cr : String → RegexExec) (s : QueryVariableState)
    (t n : String) (opt : VariableOption) (fs : Bool) (ev : SelectEvent)
    (s2 : QueryVariableState)
    (hred : queryVariableReducer cr s (.selectVariableOption t n opt fs ev) = some s2)
    (hmem : ∃ o ∈ s.«variable».options, o.value = opt.value)
    (hsel : fs = true ∨ s.«variable».multi = false ∨ opt.selected = false) :
    (opt.text = some ALL_VARIABLE_TEXT →
      ∀ o ∈ s2.«variable».options, o.value ≠ opt.value → o.selected = false) ∧
    (opt.text ≠ some ALL_VARIABLE_TEXT →
      ∀ o ∈ s2.«variable».options, o.text = some ALL_VARIABLE_TEXT →
        o.value ≠ opt.value → o.selected = false) := by
  have hopts := select_options_eq hred
  have hex : ∃ o ∈ s.«variable».options.map
      (selectOptionMap s.«variable».multi opt fs ev), o.selected = true := by
    obtain ⟨o, ho, hov⟩ := hmem
    refine ⟨selectOptionMap s.«variable».multi opt fs ev o, List.mem_map_of_mem _ ho, ?_⟩
    rw [selectOptionMap_selected_match hov]
    rcases hsel with h | h | h <;> simp [h, ite_self]
  rw [selectFirstFallback_id hex] at hopts
  constructor
  · intro hAll o ho hne
    rw [hopts] at ho
    obtain ⟨o0, _, rfl⟩ := List.mem_map.1 ho
    rw [selectOptionMap_value] at hne
    exact selectOptionMap_selected_other_all hne (Or.inr hAll)
  · intro _ o ho htext hne
    rw [hopts] at ho
    obtain ⟨o0, _, rfl⟩ := List.mem_map.1 ho
    rw [selectOptionMap_value] at hne
    rw [selectOptionMap_text] at htext
    exact selectOptionMap_selected_other_all hne (Or.inl htext)

/-- C6 witness: choosing the (unselected) "All" option on `multiAllState`
deselects `b`, observed through the amended theorem. -/
theorem C6_witness :
    ((allOption false).text = some ALL_VARIABLE_TEXT →
      ∀ o ∈ selectAllOnRes.«variable».options,
        o.value ≠ (allOption false).value → o.selected = false) ∧
    ((allOption false).text ≠ some ALL_VARIABLE_TEXT →
      ∀ o ∈ selectAllOnRes.«variable».options,
        o.text = some ALL_VARIABLE_TEXT →
          o.value ≠ (allOption false).value → o.selected = false) :=
  C6_all_option_exclusivity noRx multiAllState "query" "" (allOption false) false
    ⟨false, false, false⟩ selectAllOnRes rfl (by decide) (by decide)

/-! ### C7: reversed sort modes -/

/-- C7: for every option list and sort type `k ∈ {1, 2, 3}`, mode `2k` (the
reversed variant) produces exactly the reverse of mode `2k - 1`, also when the
numeric sort throws (both sides then fail identically). -/
theorem C7_reversed_modes (options : List VariableOption) (k : Nat)
    (hk : k = 1 ∨ k = 2 ∨ k = 3) :
    sortVariableValues options (2 * k)
      = (sortVariableValues options (2 * k - 1)).map List.reverse := by
  rcases hk with rfl | rfl | rfl
  · norm_num [sortVariableValues]
  · norm_num [sortVariableValues]
  · norm_num [sortVariableValues]

/-- C7 witness: numeric descending (mode 4) is the reverse of numeric ascending
(mode 3) on a concrete option list. -/
theorem C7_witness :
    sortVariableValues numOpts (2 * 2)
      = (sortVariableValues numOpts (2 * 2 - 1)).map List.reverse :=
  C7_reversed_modes numOpts 2 (Or.inr (Or.inl rfl))

/-! ### Helper lemmas about the sorter and the deduplicator -/

theorem sortInsert_perm (le : α → α → Bool) (x : α) (l : List α) :
    (sortInsert le x l).Perm (x :: l) := by
  induction l with
  | nil => exact List.Perm.refl _
  | cons y ys ih =>
    unfold sortInsert
    split
    · exact List.Perm.refl _
    · exact (ih.cons y).trans (List.Perm.swap x y ys)

theorem sortBy_perm (le : α → α → Bool) (l : List α) : (sortBy le l).Perm l := by
  induction l with
  | nil => exact List.Perm.refl _
  | cons x xs ih => exact (sortInsert_perm le x (sortBy le xs)).trans (ih.cons x)

theorem mapM_keyed_snd {l : List VariableOption} {keyed : List (Int × VariableOption)}
    (h : l.mapM (fun o => o.text.map (fun t => (firstNumber t, o))) = some keyed) :
    keyed.map Prod.snd = l := by
  induction l generalizing keyed with
  | nil =>
    rw [List.mapM_nil] at h
    cases h
    rfl
  | cons a as ih =>
    rw [List.mapM_cons] at h
    cases ht : a.text with
    | none => rw [ht] at h; cases h
    | some t =>
      rw [ht] at h
      cases hm : as.mapM (fun o => o.text.map (fun t => (firstNumber t, o))) with
      | none => rw [hm] at h; cases h
      | some bs =>
        rw [hm] at h
        cases h
        simp [ih hm]

theorem sortVariableValues_perm {opts out : List VariableOption} {so : Nat}
    (h : sortVariableValues opts so = some out) : out.Perm opts := by
  unfold sortVariableValues at h
  split at h
  · cases h
    exact List.Perm.refl _
  · by_cases h1 : (so + 1) / 2 = 1
    · rw [if_pos h1] at h
      cases h
      split
      · exact (List.reverse_perm _).trans (sortBy_perm _ _)
      · exact sortBy_perm _ _
    · rw [if_neg h1] at h
      by_cases h2 : (so + 1) / 2 = 2
      · rw [if_pos h2] at h
        cases hm : opts.mapM (fun o => o.text.map (fun t => (firstNumber t, o))) with
        | none => rw [hm] at h; cases h
        | some keyed =>
          rw [hm] at h
          cases h
          have base : ((sortBy (fun a b => decide (a.1 ≤ b.1)) keyed).map Prod.snd).Perm opts :=
            (mapM_keyed_snd hm) ▸ (sortBy_perm _ keyed).map Prod.snd
          split
          · exact (List.reverse_perm _).trans base
          · exact base
      · rw [if_neg h2] at h
        by_cases h3 : (so + 1) / 2 = 3
        · rw [if_pos h3] at h
          cases h
          split
          · exact (List.reverse_perm _).trans (sortBy_perm _ _)
          · exact sortBy_perm _ _
        · rw [if_neg h3] at h
          cases h
          split
          · exact List.reverse_perm _
          · exact List.Perm.refl _

theorem uniqByAux_not_seen {key : α → β} [DecidableEq β] {seen : List β} {l : List α} :
    ∀ o ∈ uniqByAux key seen l, key o ∉ seen := by
  induction l generalizing seen with
  | nil => intro o ho; cases ho
  | cons a as ih =>
    intro o ho
    unfold uniqByAux at ho
    split at ho
    · exact ih o ho
    · rcases List.mem_cons.1 ho with rfl | hmem
      · assumption
      · intro hs
        exact ih o hmem (List.mem_cons_of_mem _ hs)

theorem uniqByAux_nodup_keys {key : α → β} [DecidableEq β] {seen : List β} {l : List α} :
    ((uniqByAux key seen l).map key).Nodup := by
  induction l generalizing seen with
  | nil => simp [uniqByAux]
  | cons a as ih =>
    unfold uniqByAux
    split
    · exact ih
    · rw [List.map_cons, List.nodup_cons]
      refine ⟨?_, ih⟩
      intro hmem
      obtain ⟨o, ho, hk⟩ := List.mem_map.1 hmem
      exact uniqByAux_not_seen o ho (hk ▸ List.mem_cons_self _ _)

theorem uniqByAux_complete {key : α → β} [DecidableEq β] {seen : List β} {l : List α}
    {a : α} (ha : a ∈ l) (hs : key a ∉ seen) :
    ∃ o ∈ uniqByAux key seen l, key o = key a := by
  induction l generalizing seen with
  | nil => cases ha
  | cons b bs ih =>
    unfold uniqByAux
    split
    · next hin =>
      rcases List.mem_cons.1 ha with rfl | hmem
      · exact absurd hin hs
      · exact ih hmem hs
    · next hnin =>
      by_cases hk : key a = key b
      · exact ⟨b, List.mem_cons_self _ _, hk.symm⟩
      · rcases List.mem_cons.1 ha with rfl | hmem
        · exact absurd rfl hk
        · obtain ⟨o, ho, hko⟩ := ih hmem (by
            intro hc
            rcases List.mem_cons.1 hc with hc1 | hc2
            · exact hk hc1
            · exact hs hc2)
          exact ⟨o, List.mem_cons_of_mem _ ho, hko⟩

theorem uniqByAux_first {key : α → β} [DecidableEq β] {seen : List β} {l : List α}
    {o : α} (ho : o ∈ uniqByAux key seen l) :
    ∃ i, ∃ hi : i < l.length, l[i] = o ∧
      ∀ j, (hj : j < l.length) → j < i → key l[j] ≠ key o := by
  induction l generalizing seen with
  | nil => cases ho
  | cons a as ih =>
    have hnotseen := uniqByAux_not_seen o ho
    unfold uniqByAux at ho
    split at ho
    · next hin =>
      obtain ⟨i, hi, hget, hfirst⟩ := ih ho
      refine ⟨i + 1, by simpa using Nat.succ_lt_succ hi, by simpa using hget, ?_⟩
      intro j hj hlt
      cases j with
      | zero =>
        simp only [List.getElem_cons_zero]
        intro hk
        exact uniqByAux_not_seen o ho (hk ▸ hin)
      | succ j0 =>
        have hj0 : j0 < as.length := by simpa using hj
        simpa using hfirst j0 hj0 (by omega)
    · next hnin =>
      rcases List.mem_cons.1 ho with rfl | hmem
      · exact ⟨0, by simp, by simp, fun j hj hlt => by omega⟩
      · obtain ⟨i, hi, hget, hfirst⟩ := ih hmem
        refine ⟨i + 1, by simpa using Nat.succ_lt_succ hi, by simpa using hget, ?_⟩
        intro j hj hlt
        cases j with
        | zero =>
          simp only [List.getElem_cons_zero]
          intro hk
          exact uniqByAux_not_seen o hmem (hk ▸ List.mem_cons_self _ _)
        | succ j0 =>
          have hj0 : j0 < as.length := by simpa using hj
          simpa using hfirst j0 hj0 (by omega)

theorem uniqByAux_subset {key : α → β} [DecidableEq β] {seen : List β} {l : List α} :
    ∀ o ∈ uniqByAux key seen l, o ∈ l := by
  induction l generalizing seen with
  | nil => intro o ho; cases ho
  | cons a as ih =>
    intro o ho
    unfold uniqByAux at ho
    split at ho
    · exact List.mem_cons_of_mem _ (ih o ho)
    · rcases List.mem_cons.1 ho with rfl | hmem
      · exact List.mem_cons_self _ _
      · exact List.mem_cons_of_mem _ (ih o hmem)

theorem filterMap_processItem_none (l : List MetricName) :
    l.filterMap (processItem none) = l.map buildOption := by
  induction l with
  | nil => rfl
  | cons a as ih => simp [List.filterMap_cons, processItem, buildOption, ih]

/-! ### C4: dedup keeps the first occurrence of each value -/

/-- C4: with no regex filtering, whenever the normalizer returns a list, each
distinct value appears exactly once, every input item's value is represented,
and each surviving record is the one built from the first occurrence (in input
order) of its value. -/
theorem C4_normalize_dedup (cr : String → RegexExec) (sort : Nat)
    (names : List MetricName) (out : List VariableOption)
    (h : metricNamesToVariableValues cr "" sort names = some out) :
    (∀ o ∈ out, out.countP (fun q => decide (q.value = o.value)) = 1) ∧
    (∀ i, (hi : i < names.length) →
      ∃ o ∈ out, o.value = (buildOption names[i]).value) ∧
    (∀ o ∈ out, ∃ i, ∃ hi : i < names.length, o = buildOption names[i] ∧
      ∀ j, (hj : j < names.length) → j < i →
        (buildOption names[j]).value ≠ o.value) := by
  simp only [metricNamesToVariableValues] at h
  rw [if_neg (by simp : ¬("" : String) ≠ ""), filterMap_processItem_none] at h
  have hperm : out.Perm (uniqBy (fun o => o.value) (names.map buildOption)) :=
    sortVariableValues_perm h
  have hnodup : ((uniqBy (fun o => o.value) (names.map buildOption)).map
      (fun o => o.value)).Nodup := uniqByAux_nodup_keys
  refine ⟨?_, ?_, ?_⟩
  · intro o ho
    have hou := hperm.subset ho
    rw [hperm.countP_eq]
    exact countP_value_eq_one hnodup ⟨o, hou, rfl⟩
  · intro i hi
    have hmem : buildOption names[i] ∈ names.map buildOption :=
      List.mem_map_of_mem _ (List.getElem_mem hi)
    obtain ⟨o, ho, hk⟩ := @uniqByAux_complete VariableOption (Option String)
      (fun o => o.value) _ [] (names.map buildOption) (buildOption names[i])
      hmem (List.not_mem_nil _)
    exact ⟨o, hperm.mem_iff.2 ho, hk⟩
  · intro o ho
    have hou := hperm.subset ho
    obtain ⟨i, hi, hget, hfirst⟩ := uniqByAux_first hou
    have hi' : i < names.length := by simpa using hi
    refine ⟨i, hi', ?_, ?_⟩
    · rw [← hget]
      simp [List.getElem_map]
    · intro j hj hlt
      have := hfirst j (by simpa using hj) hlt
      simpa [List.getElem_map] using this

/-- C4 witness: the dedup properties observed on the raw list `[a, a, b]` of the
spec's own example. -/
theorem C4_witness :
    (∀ o ∈ dedupRes, dedupRes.countP (fun q => decide (q.value = o.value)) = 1) ∧
    (∀ i, (hi : i < dupNames.length) →
      ∃ o ∈ dedupRes, o.value = (buildOption dupNames[i]).value) ∧
    (∀ o ∈ dedupRes, ∃ i, ∃ hi : i < dupNames.length, o = buildOption dupNames[i] ∧
      ∀ j, (hj : j < dupNames.length) → j < i →
        (buildOption dupNames[j]).value ≠ o.value) :=
  C4_normalize_dedup noRx 0 dupNames dedupRes rfl

/-! ### Helper lemmas about the collection router -/

theorem jsFindIndex_ne (p : QueryVariableState → Bool) (l : List QueryVariableState) :
    ∀ i, (hi : i < l.length) → p l[i] = false → jsFindIndex p l ≠ (i : Int) := by
  induction l with
  | nil => intro i hi; simp at hi
  | cons x xs ih =>
    intro i hi hp
    unfold jsFindIndex
    split
    · next hpx =>
      cases i with
      | zero =>
        rw [List.getElem_cons_zero, hpx] at hp
        cases hp
      | succ i0 => intro hc; omega
    · next hpx =>
      show (if jsFindIndex p xs < 0 then (-1 : Int) else jsFindIndex p xs + 1) ≠ (i : Int)
      cases i with
      | zero =>
        by_cases hr : jsFindIndex p xs < 0
        · rw [if_pos hr]; intro hc; omega
        · rw [if_neg hr]; intro hc; omega
      | succ i0 =>
        have hi0 : i0 < xs.length := by simpa using hi
        have hp0 : p xs[i0] = false := by simpa using hp
        have hne := ih i0 hi0 hp0
        by_cases hr : jsFindIndex p xs < 0
        · rw [if_pos hr]; intro hc; omega
        · rw [if_neg hr]
          intro hc
          apply hne
          push_cast at hc ⊢
          omega

theorem jsFindIndex_none (p : QueryVariableState → Bool) (l : List QueryVariableState)
    (h : ∀ x ∈ l, p x = false) : jsFindIndex p l = -1 := by
  induction l with
  | nil => rfl
  | cons x xs ih =>
    unfold jsFindIndex
    rw [ih (fun y hy => h y (List.mem_cons_of_mem _ hy))]
    simp [h x (List.mem_cons_self _ _)]

theorem mapChildren_skip_all (cr : String → RegexExec) {idx : Int} (hidx : idx < 0)
    (inst : Option QueryVariableState) (a : Action) :
    ∀ (k : Nat) (l : List QueryVariableState), mapChildren cr idx inst a k l = some l := by
  intro k l
  induction l generalizing k with
  | nil => rfl
  | cons v rest ih =>
    have hcond : ((k : Nat) : Int) ≠ idx := by omega
    unfold mapChildren
    rw [if_pos hcond, ih (k + 1)]

theorem mapChildren_preserve (cr : String → RegexExec) {idx : Int}
    {inst : Option QueryVariableState} {a : Action} :
    ∀ (k : Nat) (l : List QueryVariableState) (r : List QueryVariableState),
      mapChildren cr idx inst a k l = some r →
      ∀ i, (hi : i < l.length) → ((k + i : Nat) : Int) ≠ idx → r[i]? = l[i]? := by
  intro k l
  induction l generalizing k with
  | nil => intro r h i hi; simp at hi
  | cons v rest ih =>
    intro r h i hi hne
    unfold mapChildren at h
    cases hhd : (if ((k : Nat) : Int) ≠ idx then some v
        else queryVariableReducer cr (childStateOrDefault inst) a) with
    | none => rw [hhd] at h; cases h
    | some hd =>
      rw [hhd] at h
      cases htl : mapChildren cr idx inst a (k + 1) rest with
      | none => rw [htl] at h; cases h
      | some tl =>
        rw [htl] at h
        cases h
        cases i with
        | zero =>
          have hk : ((k : Nat) : Int) ≠ idx := by simpa using hne
          rw [if_pos hk] at hhd
          cases hhd
          simp
        | succ i0 =>
          have hi0 : i0 < rest.length := by simpa using hi
          have hne0 : ((k + 1 + i0 : Nat) : Int) ≠ idx := by
            push_cast at hne ⊢
            omega
          simpa using ih (k + 1) tl htl i0 hi0 hne0

theorem updateChildState_other_type (cr : String → RegexExec)
    (state : List QueryVariableState) {t : String} (n : String) (a : Action)
    (ht : t ≠ "query") : updateChildState cr state t n a = some state := by
  unfold updateChildState
  rw [if_pos ht]

theorem updateChildState_frame (cr : String → RegexExec)
    {state : List QueryVariableState} {t n : String} {a : Action}
    {result : List QueryVariableState}
    (hred : updateChildState cr state t n a = some result)
    (i : Nat) (hi : i < state.length) (hname : state[i].«variable».name ≠ n) :
    result[i]? = some state[i] := by
  unfold updateChildState at hred
  split at hred
  · cases hred
    exact List.getElem?_eq_getElem hi
  · have hpf : (fun child => decide (child.«variable».name = n)) state[i] = false := by
      simp [hname]
    have hne := jsFindIndex_ne (fun child => decide (child.«variable».name = n))
      state i hi hpf
    have h0 : ((0 + i : Nat) : Int)
        ≠ jsFindIndex (fun child => decide (child.«variable».name = n)) state := by
      simpa using Ne.symm hne
    rw [← List.getElem?_eq_getElem hi]
    exact mapChildren_preserve cr 0 state result hred i hi h0

/-! ### C8: routing touches at most the targeted instance -/

/-- C8: events whose declared type is not `query` leave the collection
unchanged, and every instance whose name differs from the event's routing name
survives any successful transition at its position unchanged. -/
theorem C8_routing_frame (cr : String → RegexExec) :
    (∀ (state : List QueryVariableState) (a : Action),
      a.declaredType ≠ some "query" → queryVariablesReducer cr state a = some state) ∧
    (∀ (state : List QueryVariableState) (a : Action)
        (result : List QueryVariableState) (i : Nat) (hi : i < state.length),
      queryVariablesReducer cr state a = some result →
      (∀ nm, a.routingName = some nm → state[i].«variable».name ≠ nm) →
      result[i]? = some state[i]) := by
  constructor
  · intro state a hdt
    cases a with
    | addVariable g ix m =>
      have ht : m.type ≠ "query" := fun he => hdt (by
        simp only [Action.declaredType]
        rw [he])
      simp only [queryVariablesReducer]
      rw [if_pos ht]
    | unhandled => rfl
    | updateVariableOptions t n r =>
      exact updateChildState_other_type cr state n _ (fun he => hdt (by
        simp only [Action.declaredType]; rw [he]))
    | updateVariableTags t n r =>
      exact updateChildState_other_type cr state n _ (fun he => hdt (by
        simp only [Action.declaredType]; rw [he]))
    | setCurrentVariableValue t n c =>
      exact updateChildState_other_type cr state n _ (fun he => hdt (by
        simp only [Action.declaredType]; rw [he]))
    | setInitLock t n =>
      exact updateChildState_other_type cr state n _ (fun he => hdt (by
        simp only [Action.declaredType]; rw [he]))
    | resolveInitLock t n =>
      exact updateChildState_other_type cr state n _ (fun he => hdt (by
        simp only [Action.declaredType]; rw [he]))
    | removeInitLock t n =>
      exact updateChildState_other_type cr state n _ (fun he => hdt (by
        simp only [Action.declaredType]; rw [he]))
    | selectVariableOption t n o f e =>
      exact updateChildState_other_type cr state n _ (fun he => hdt (by
        simp only [Action.declaredType]; rw [he]))
    | showQueryVariableDropDown t n =>
      exact updateChildState_other_type cr state n _ (fun he => hdt (by
        simp only [Action.declaredType]; rw [he]))
    | hideQueryVariableDropDown t n =>
      exact updateChildState_other_type cr state n _ (fun he => hdt (by
        simp only [Action.declaredType]; rw [he]))
  · intro state a result i hi hred hname
    cases a with
    | addVariable g ix m =>
      simp only [queryVariablesReducer] at hred
      split at hred
      · cases hred
        exact List.getElem?_eq_getElem hi
      · cases hred
        rw [List.getElem?_append_left hi]
        exact List.getElem?_eq_getElem hi
    | unhandled =>
      cases hred
      exact List.getElem?_eq_getElem hi
    | updateVariableOptions t n r => exact updateChildState_frame cr hred i hi (hname n rfl)
    | updateVariableTags t n r => exact updateChildState_frame cr hred i hi (hname n rfl)
    | setCurrentVariableValue t n c => exact updateChildState_frame cr hred i hi (hname n rfl)
    | setInitLock t n => exact updateChildState_frame cr hred i hi (hname n rfl)
    | resolveInitLock t n => exact updateChildState_frame cr hred i hi (hname n rfl)
    | removeInitLock t n => exact updateChildState_frame cr hred i hi (hname n rfl)
    | selectVariableOption t n o f e => exact updateChildState_frame cr hred i hi (hname n rfl)
    | showQueryVariableDropDown t n => exact updateChildState_frame cr hred i hi (hname n rfl)
    | hideQueryVariableDropDown t n => exact updateChildState_frame cr hred i hi (hname n rfl)

/-- C8 witness: a `setInitLock` routed with type `other` leaves a concrete
one-instance collection unchanged, and a `query` event routed to a different
name leaves the instance at position 0 in place. -/
theorem C8_witness :
    queryVariablesReducer noRx [namedAState] otherTypeAct = some [namedAState] ∧
    missingNameRes[0]? = some namedAState :=
  ⟨(C8_routing_frame noRx).1 [namedAState] otherTypeAct (by decide),
   (C8_routing_frame noRx).2 [namedAState] missingNameAct missingNameRes 0 (by decide)
     rfl (fun nm hnm => by cases hnm; decide)⟩

/-! ### C9: routing to a missing (type, name) does not crash -/

/-- C9: when the routed type is `query` but no instance carries the routed name,
`updateChildState` neither throws nor changes anything: it succeeds with the
collection whose every element is the unchanged original instance. -/
theorem C9_missing_name_noop (cr : String → RegexExec)
    (state : List QueryVariableState) (name : String) (action : Action)
    (h : ∀ inst ∈ state, inst.«variable».name ≠ name) :
    updateChildState cr state "query" name action = some state := by
  unfold updateChildState
  rw [if_neg (by simp)]
  have hfi : jsFindIndex (fun child => decide (child.«variable».name = name)) state
      = -1 := jsFindIndex_none _ state (fun x hx => by simp [h x hx])
  rw [hfi]
  exact mapChildren_skip_all cr (by decide) _ action 0 state

/-- C9 witness: routing name `zzz` into the one-instance collection named `a`
returns the collection unchanged. -/
theorem C9_witness :
    updateChildState noRx [namedAState] "query" "zzz" missingNameAct
      = some [namedAState] :=
  C9_missing_name_noop noRx [namedAState] "zzz" missingNameAct (by decide)

/-! ### C10: totality of the link-text recomputation -/

theorem tagFilterLoop_total (v : Option String) (tags : List VariableTag)
    (h : ∀ tag ∈ tags, tag.values.isSome = true) :
    (tagFilterLoop v tags).isSome = true := by
  induction tags with
  | nil => rfl
  | cons tag rest ih =>
    have hrec := ih (fun t ht => h t (List.mem_cons_of_mem _ ht))
    unfold tagFilterLoop
    cases hv : tag.values with
    | none =>
      have := h tag (List.mem_cons_self _ _)
      rw [hv] at this
      cases this
    | some vs =>
      show (if (vs.findIdx? (fun v2 => decide (some v2 = v))).isSome = true
          then some false else tagFilterLoop v rest).isSome = true
      split
      · rfl
      · exact hrec

theorem filterSelectedNotInTag_total (tags : List VariableTag)
    (options : List VariableOption)
    (h : ∀ tag ∈ tags, tag.values.isSome = true) :
    (filterSelectedNotInTag tags options).isSome = true := by
  induction options with
  | nil => rfl
  | cons o rest ih =>
    unfold filterSelectedNotInTag
    have hkeep : (if !o.selected then some false else tagFilterLoop o.value tags).isSome
        = true := by
      split
      · rfl
      · exact tagFilterLoop_total o.value tags h
    obtain ⟨b, hb⟩ := Option.isSome_iff_exists.1 hkeep
    rw [hb]
    obtain ⟨l2, hl2⟩ := Option.isSome_iff_exists.1 ih
    show (match filterSelectedNotInTag tags rest with
      | none => none
      | some others => some (if b = true then o :: others else others)).isSome = true
    rw [hl2]
    rfl

/-- C10 counterexample: a state whose non-empty `current.tags` holds a tag with
no `values` array on which `updateLinkText` nevertheless succeeds (no selected
option ever reaches the missing array), contradicting the claim that such
states always make the step fail. -/
theorem C10_no_deref_when_unselected :
    (updateLinkText tagNoDerefState).isSome = true ∧
    tagNoDerefState.«variable».current.tags ≠ [] ∧
    valuelessTag ∈ tagNoDerefState.«variable».current.tags ∧
    valuelessTag.values = none :=
  ⟨rfl, by decide, by decide, rfl⟩

/-- C10 (amended): `updateLinkText` is total on every state whose
`current.tags` all carry a defined `values` array; without that precondition it
can throw — it fails exactly when some selected option's value is searched in a
tag lacking `values` before any earlier tag contains that value, as on the
concrete state `tagDerefState` — while states where no lookup reaches a missing
array still succeed. -/
theorem C10_linkText_totality (s : QueryVariableState)
    (h : ∀ tag ∈ s.«variable».current.tags, tag.values.isSome = true) :
    (updateLinkText s).isSome = true ∧ updateLinkText tagDerefState = none := by
  refine ⟨?_, rfl⟩
  simp only [updateLinkText]
  split
  · rfl
  · obtain ⟨l, hl⟩ := Option.isSome_iff_exists.1
      (filterSelectedNotInTag_total s.«variable».current.tags s.«variable».options h)
    rw [hl]
    rfl

/-- C10 witness: the totality observed on a concrete state whose tag carries a
`values` array, next to the concrete failing state. -/
theorem C10_witness :
    (updateLinkText tagWithValuesState).isSome = true ∧
    updateLinkText tagDerefState = none :=
  C10_linkText_totality tagWithValuesState (by decide)

end Grafana
